import Mathlib

set_option maxHeartbeats 1000000

/-!
Shallow embedding of the SanHub repository's prompt-blocklist matcher
(`src/lib/prompt-blocklist-core.ts`), its video-channel adapter and URL
extractor (gallery module), and the two prompt-processor variants.

Strings are modelled as Lean `String` (a packed `List Char`); all string
primitives are implemented character-wise so that they can be reasoned
about.  JavaScript's `RegExp` engine is an external collaborator of the
blocklist module (rules compiled with `new RegExp` inside `try`/`catch`),
so it is modelled abstractly as a `RegexEngine`: `compile pattern flags`
returns `none` exactly when `new RegExp` would throw, and a compiled
regex is a pure test function (the source resets `lastIndex` before each
`test`, which makes the JS test deterministic).  The word-boundary regex
built by `buildWordBoundaryRegex` is a fixed, always-valid pattern over
an escaped literal, so it is modelled concretely by `wordBoundaryMatch`.
Character classes (`\p{L}`, `\p{N}`, `\w`, `\s`, case folding) are
modelled on their ASCII portion, which covers every input exercised here.
-/

/-! ### Character and character-list primitives -/

def quoteD : Char := Char.ofNat 34

def quoteS : Char := Char.ofNat 39

def nlChar : Char := Char.ofNat 10

def backtickChar : Char := Char.ofNat 96

def wsChar (c : Char) : Bool := c.isWhitespace

/-- Strip trailing whitespace, modelling the tail half of `String.prototype.trim`. -/
def dropTrail (l : List Char) : List Char := (l.reverse.dropWhile wsChar).reverse

/-- Model of JavaScript `String.prototype.trim` on character lists. -/
def trimList (l : List Char) : List Char := dropTrail (l.dropWhile wsChar)

def jsTrim (s : String) : String := ⟨trimList s.data⟩

def lowerList (l : List Char) : List Char := l.map Char.toLower

/-- Model of `String.prototype.toLowerCase` (ASCII portion). -/
def jsToLower (s : String) : String := ⟨lowerList s.data⟩

def isPrefixL : List Char → List Char → Bool
  | [], _ => true
  | _ :: _, [] => false
  | a :: as, b :: bs => a = b && isPrefixL as bs

/-- Model of `String.prototype.includes`: `needle` occurs contiguously in the list. -/
def containsL (needle : List Char) : List Char → Bool
  | [] => needle.isEmpty
  | c :: rest => isPrefixL needle (c :: rest) || containsL needle rest

def strContains (hay needle : String) : Bool := containsL needle.data hay.data

/-- ASCII case folding used by the `i` regex flag. -/
def foldEq (a b : Char) : Bool := a.toLower = b.toLower

def isPrefixCI : List Char → List Char → Bool
  | [], _ => true
  | _ :: _, [] => false
  | a :: as, b :: bs => foldEq a b && isPrefixCI as bs

/-- Split on newline characters; `split(/\r?\n/)` followed by per-line `trim`
is equivalent to splitting on bare newline followed by `trim`, because the
carriage return left at a line end is whitespace and is trimmed away. -/
def splitNl : List Char → List (List Char)
  | [] => [[]]
  | c :: rest =>
    if c = nlChar then [] :: splitNl rest
    else
      match splitNl rest with
      | [] => [[c]]
      | l :: ls => (c :: l) :: ls

/-! ### Blocklist matcher (`src/lib/prompt-blocklist-core.ts`) -/

def PROMPT_BLOCKED_ERROR_PREFIX : String := "Prompt blocked by safety policy"

/-- `normalizeText`: `value.trim().toLowerCase()`. -/
def normalizeText (s : String) : String := jsToLower (jsTrim s)

/-- Abstract JS regular-expression engine: `compile pattern flags` models
`new RegExp(pattern, flags)`, returning `none` when the constructor throws;
a compiled regex is its (pure, post-`lastIndex`-reset) `test` function. -/
structure RegexEngine where
  compile : String → String → Option (String → Bool)

inductive BlocklistRule where
  | word (raw value : String)
  | substring (raw value : String)
  | regex (raw value : String) (test : String → Bool)

def BlocklistRule.raw : BlocklistRule → String
  | .word r _ => r
  | .substring r _ => r
  | .regex r _ _ => r

def isWordCharB (c : Char) : Bool := c.isAlpha || c.isDigit || c = '_'

def boundaryAfter : List Char → Bool
  | [] => true
  | c :: _ => !isWordCharB c

def prevBoundary : Option Char → Bool
  | none => true
  | some c => !isWordCharB c

/-- Scan for a match of `buildWordBoundaryRegex(value)`:
`(?:^|[^\p{L}\p{N}_])ESC(value)(?=$|[^\p{L}\p{N}_])` with flags `iu`, i.e.
an occurrence of the literal (escaped) value, case-insensitively, preceded
by start-of-string or a non-word character and followed by end-of-string or
a non-word character. -/
def wbScan (needle : List Char) : Option Char → List Char → Bool
  | prev, [] => prevBoundary prev && needle.isEmpty
  | prev, c :: rest =>
    (prevBoundary prev && isPrefixCI needle (c :: rest)
        && boundaryAfter ((c :: rest).drop needle.length))
      || wbScan needle (some c) rest

/-- Model of `buildWordBoundaryRegex(value).test(prompt)`. -/
def wordBoundaryMatch (value prompt : String) : Bool :=
  wbScan (trimList value.data) none prompt.data

def dedupChars (seen : List Char) : List Char → List Char
  | [] => []
  | c :: rest => if seen.contains c then dedupChars seen rest else c :: dedupChars (c :: seen) rest

/-- `buildRegexRule`: clean the pattern, normalize the flags (de-duplicate,
keep only `gimsuyd`, force `u`), and compile through the engine; `none`
models both the empty-pattern guard and the `try`/`catch` around
`new RegExp`. -/
def buildRegexRule (e : RegexEngine) (raw pattern flags : String) : Option BlocklistRule :=
  let cleanedPattern := jsTrim pattern
  if cleanedPattern.data.isEmpty then none
  else
    let flagSource := if flags.data.isEmpty then ("iu" : String) else flags
    let uniqueFlags := (dedupChars [] flagSource.data).filter (fun c => containsL [c] (("gimsuyd" : String).data))
    let finalFlags := if uniqueFlags.contains 'u' then uniqueFlags else uniqueFlags ++ ['u']
    match e.compile cleanedPattern ⟨finalFlags⟩ with
    | some t => some (.regex raw cleanedPattern t)
    | none => none

/-- Model of `rest.match(/^\/(.*)\/([a-z]*)$/i)`: the string is a literal
`/pattern/flags` form iff it starts with a slash and the text after its last
slash is all ASCII letters (the greedy `.*` picks the last such slash). -/
def literalSplit (raw : List Char) : Option (String × String) :=
  match raw with
  | c :: rest =>
    if c = '/' then
      let rev := rest.reverse
      let flagsRev := rev.takeWhile Char.isAlpha
      match rev.drop flagsRev.length with
      | d :: midRev => if d = '/' then some (⟨midRev.reverse⟩, ⟨flagsRev.reverse⟩) else none
      | [] => none
    else none
  | [] => none

def regexRuleFromRest (e : RegexEngine) (raw : String) (restRaw : List Char) : Option BlocklistRule :=
  let rest := trimList restRaw
  if rest.isEmpty then none
  else
    match literalSplit rest with
    | some (pat, flags) => buildRegexRule e raw pat flags
    | none => buildRegexRule e raw ⟨rest⟩ ("iu")

/-- `parseRule`: one trimmed line to at most one rule (`substr:`, `word:`,
`re:`/`regex:`, `/pattern/flags` literal, defaulting to whole-word). -/
def parseRule (e : RegexEngine) (line : String) : Option BlocklistRule :=
  let raw := trimList line.data
  if raw.isEmpty then none
  else
    let lower := lowerList raw
    if isPrefixL (("substr:" : String).data) lower then
      let value := trimList (raw.drop 7)
      if value.isEmpty then none else some (.substring ⟨raw⟩ ⟨value⟩)
    else if isPrefixL (("word:" : String).data) lower then
      let value := trimList (raw.drop 5)
      if value.isEmpty then none else some (.word ⟨raw⟩ ⟨value⟩)
    else if isPrefixL (("re:" : String).data) lower then
      regexRuleFromRest e ⟨raw⟩ (raw.drop 3)
    else if isPrefixL (("regex:" : String).data) lower then
      regexRuleFromRest e ⟨raw⟩ (raw.drop 6)
    else
      match literalSplit raw with
      | some (pat, flags) => buildRegexRule e ⟨raw⟩ pat flags
      | none => some (.word ⟨raw⟩ ⟨raw⟩)

/-- `parseBlocklistWords`: split into lines, trim, drop blanks. -/
def parseBlocklistWords (raw : String) : List String :=
  (((splitNl raw.data).map trimList).filter (fun l => !l.isEmpty)).map (fun l => (⟨l⟩ : String))

/-- One rule against the prompt: substring rules test the normalized prompt,
word and regex rules run their regex against the raw prompt. -/
def ruleMatches (rule : BlocklistRule) (prompt normalizedPrompt : String) : Bool :=
  match rule with
  | .substring _ value => strContains normalizedPrompt (normalizeText value)
  | .word _ value => wordBoundaryMatch value prompt
  | .regex _ _ t => t prompt

/-- The de-duplicating match loop of `findBlockedWords` (`seen` models the
`Set` of normalized raws already matched). -/
def collectMatched (prompt normalizedPrompt : String) :
    List BlocklistRule → List String → List String
  | [], _ => []
  | rule :: rest, seen =>
    let identity := normalizeText rule.raw
    if identity.data.isEmpty || seen.contains identity then
      collectMatched prompt normalizedPrompt rest seen
    else if ruleMatches rule prompt normalizedPrompt then
      rule.raw :: collectMatched prompt normalizedPrompt rest (identity :: seen)
    else
      collectMatched prompt normalizedPrompt rest seen

def findBlockedWords (e : RegexEngine) (prompt rawWords : String) : List String :=
  let normalizedPrompt := normalizeText prompt
  if normalizedPrompt.data.isEmpty then []
  else
    let rules := (parseBlocklistWords rawWords).filterMap (parseRule e)
    collectMatched prompt normalizedPrompt rules []

structure PromptBlocklistConfig where
  blocklistEnabled : Option Bool
  blocklistWords : Option String

def buildPromptBlockedMessage (matchedWords : List String) : String :=
  PROMPT_BLOCKED_ERROR_PREFIX ++ ": " ++ String.intercalate (", ") matchedWords

/-- `assertPromptAllowedWithConfig`; the thrown `Error` is modelled as
`Except.error` carrying the message. -/
def assertPromptAllowedWithConfig (e : RegexEngine) (prompt : String)
    (config : PromptBlocklistConfig) : Except String Unit :=
  if config.blocklistEnabled.getD false = false then Except.ok ()
  else
    let matchedWords := findBlockedWords e prompt (config.blocklistWords.getD (""))
    if 0 < matchedWords.length then Except.error (buildPromptBlockedMessage matchedWords)
    else Except.ok ()

def parenBalanced : List Char → Nat → Bool
  | [], depth => depth = 0
  | c :: rest, depth =>
    if c = '(' then parenBalanced rest (depth + 1)
    else if c = ')' then
      match depth with
      | 0 => false
      | d + 1 => parenBalanced rest d
    else parenBalanced rest depth

/-- A concrete engine exhibiting JS behaviour on unbalanced parentheses:
`new RegExp` throws (compile returns `none`) iff parentheses are unbalanced. -/
def parenCheckEngine : RegexEngine :=
  ⟨fun pattern _flags => if parenBalanced pattern.data 0 then some (fun _ => false) else none⟩

/-! ### Video channel adapter (gallery module) -/

def firstDigitRun : List Char → Option (List Char)
  | [] => none
  | c :: rest => if c.isDigit then some (c :: rest.takeWhile Char.isDigit) else firstDigitRun rest

def digitsVal (ds : List Char) : Nat := ds.foldl (fun a c => a * 10 + (c.toNat - 48)) 0

/-- `normalizeDurationSeconds`: first digit run of the duration string, or 10. -/
def normalizeDurationSeconds (duration : String) : Nat :=
  if duration.data.isEmpty then 10
  else
    match firstDigitRun duration.data with
    | none => 10
    | some ds =>
      let parsed := digitsVal ds
      if parsed = 0 then 10 else parsed

/-- `mapFlowModel`: pick one of the fixed Flow upstream identifiers from
i2v/r2v markers in the model name, the aspect ratio and the duration. -/
def mapFlowModel (modelName aspectRatio duration : String) : String :=
  let ratio := jsToLower aspectRatio
  let seconds := normalizeDurationSeconds duration
  let isI2V := strContains (jsToLower modelName) ("i2v") || strContains (jsToLower modelName) ("image")
  let isR2V := strContains (jsToLower modelName) ("r2v") || strContains (jsToLower modelName) ("reference")
  if isR2V then
    if ratio = "portrait" then "veo_3_0_r2v_fast_portrait" else "veo_3_0_r2v_fast_landscape"
  else if isI2V then
    if 15 ≤ seconds then
      if ratio = "portrait" then "veo_2_1_fast_d_15_i2v_portrait" else "veo_2_1_fast_d_15_i2v_landscape"
    else
      if ratio = "portrait" then "veo_3_1_i2v_s_fast_fl_portrait" else "veo_3_1_i2v_s_fast_fl_landscape"
  else if 15 ≤ seconds then
    if ratio = "portrait" then "veo_2_1_fast_d_15_t2v_portrait" else "veo_2_1_fast_d_15_t2v_landscape"
  else
    if ratio = "portrait" then "veo_3_1_t2v_fast_portrait" else "veo_3_1_t2v_fast_landscape"

/-- `mapGrokModel`: pass an already fully-qualified id through unchanged,
otherwise compose `base-orientation-10s/15s`. -/
def mapGrokModel (modelName aspectRatio duration : String) : String :=
  let ratio := jsToLower aspectRatio
  let seconds := normalizeDurationSeconds duration
  let base : String := "grok-imagine-1.0-video"
  let orientation : String := if ratio = "portrait" then "portrait" else "landscape"
  let finalSeconds : String := if 15 ≤ seconds then "15s" else "10s"
  if strContains (jsToLower modelName) ("grok-imagine-1.0-video-") then modelName
  else base ++ "-" ++ orientation ++ "-" ++ finalSeconds

/-- Configured video pricing tiers; the price type is abstract (JS numbers). -/
structure Pricing (α : Type) where
  soraVideo10s : α
  soraVideo15s : α
  soraVideo25s : α

/-- `getTypeAndCost`: bucket by substring tests on the requested model string. -/
def getTypeAndCost {α : Type} (model : String) (pricing : Pricing α) : String × α :=
  if strContains model ("25s") || strContains model ("25") then ("sora-video", pricing.soraVideo25s)
  else if strContains model ("15s") || strContains model ("15") then ("sora-video", pricing.soraVideo15s)
  else ("sora-video", pricing.soraVideo10s)

/-! ### JSON values and `JSON.parse`

`JSON.parse` is modelled by a fuel-indexed recursive-descent parser over the
standard JSON grammar (objects, arrays, strings with the basic escapes,
numbers kept as raw text since no caller inspects them, `true`/`false`/`null`).
`\uXXXX` escapes are decoded for valid scalar values; lone surrogates are
rejected (a model boundary: Lean `Char` cannot carry them, and no claim
exercises them). Duplicate object keys resolve to the last binding, as in JS. -/

inductive Json where
  | jnull
  | jbool (b : Bool)
  | jnum (raw : String)
  | jstr (s : String)
  | jarr (items : List Json)
  | jobj (fields : List (String × Json))

def jsonWsChar (c : Char) : Bool :=
  c = ' ' || c = Char.ofNat 9 || c = Char.ofNat 10 || c = Char.ofNat 13

def skipJsonWs (cs : List Char) : List Char := cs.dropWhile jsonWsChar

def hexVal (c : Char) : Option Nat :=
  if c.isDigit then some (c.toNat - 48)
  else if 'a' ≤ c && c ≤ 'f' then some (c.toNat - 87)
  else if 'A' ≤ c && c ≤ 'F' then some (c.toNat - 55)
  else none

def parseJsonStringBody : Nat → List Char → Option (List Char × List Char)
  | 0, _ => none
  | _ + 1, [] => none
  | fuel + 1, c :: rest =>
    if c = quoteD then some ([], rest)
    else if c = Char.ofNat 92 then
      match rest with
      | [] => none
      | e :: rest2 =>
        if e = quoteD then
          (parseJsonStringBody fuel rest2).map (fun r => (quoteD :: r.1, r.2))
        else if e = Char.ofNat 92 then
          (parseJsonStringBody fuel rest2).map (fun r => (Char.ofNat 92 :: r.1, r.2))
        else if e = '/' then
          (parseJsonStringBody fuel rest2).map (fun r => ('/' :: r.1, r.2))
        else if e = 'b' then
          (parseJsonStringBody fuel rest2).map (fun r => (Char.ofNat 8 :: r.1, r.2))
        else if e = 'f' then
          (parseJsonStringBody fuel rest2).map (fun r => (Char.ofNat 12 :: r.1, r.2))
        else if e = 'n' then
          (parseJsonStringBody fuel rest2).map (fun r => (Char.ofNat 10 :: r.1, r.2))
        else if e = 'r' then
          (parseJsonStringBody fuel rest2).map (fun r => (Char.ofNat 13 :: r.1, r.2))
        else if e = 't' then
          (parseJsonStringBody fuel rest2).map (fun r => (Char.ofNat 9 :: r.1, r.2))
        else if e = 'u' then
          match rest2 with
          | h1 :: h2 :: h3 :: h4 :: rest3 =>
            match hexVal h1, hexVal h2, hexVal h3, hexVal h4 with
            | some a, some b, some c3, some d =>
              let n := ((a * 16 + b) * 16 + c3) * 16 + d
              if 55296 ≤ n && n ≤ 57343 then none
              else (parseJsonStringBody fuel rest3).map (fun r => (Char.ofNat n :: r.1, r.2))
            | _, _, _, _ => none
          | _ => none
        else none
    else if c.toNat < 32 then none
    else (parseJsonStringBody fuel rest).map (fun r => (c :: r.1, r.2))

/-- JSON number grammar: `-?(0|[1-9][0-9]*)(\.[0-9]+)?([eE][+-]?[0-9]+)?`,
returned as its raw text. -/
def parseJsonNumber (cs : List Char) : Option (List Char × List Char) :=
  let afterSign := fun (l : List Char) =>
    match l with
    | c :: rest =>
      if c = '0' then some ([c], rest)
      else if c.isDigit then
        let run := rest.takeWhile Char.isDigit
        some (c :: run, rest.drop run.length)
      else none
    | [] => none
  let withSign :=
    match cs with
    | c :: rest =>
      if c = '-' then (afterSign rest).map (fun r => (c :: r.1, r.2))
      else afterSign cs
    | [] => none
  match withSign with
  | none => none
  | some (intPart, rest1) =>
    let fracced :=
      match rest1 with
      | c :: rest2 =>
        if c = '.' then
          let run := rest2.takeWhile Char.isDigit
          if run.isEmpty then none
          else some (intPart ++ c :: run, rest2.drop run.length)
        else some (intPart, rest1)
      | [] => some (intPart, rest1)
    match fracced with
    | none => none
    | some (mantissa, rest2) =>
      match rest2 with
      | c :: rest3 =>
        if c = 'e' || c = 'E' then
          let signed :=
            match rest3 with
            | d :: rest4 => if d = '+' || d = '-' then (d :: [], rest4) else ([], rest3)
            | [] => ([], rest3)
          let run := signed.2.takeWhile Char.isDigit
          if run.isEmpty then none
          else some (mantissa ++ c :: signed.1 ++ run, signed.2.drop run.length)
        else some (mantissa, rest2)
      | [] => some (mantissa, rest2)

mutual

def parseJsonValue : Nat → List Char → Option (Json × List Char)
  | 0, _ => none
  | fuel + 1, cs =>
    match skipJsonWs cs with
    | [] => none
    | c :: rest =>
      if c = quoteD then
        (parseJsonStringBody (rest.length + 1) rest).map (fun r => (Json.jstr ⟨r.1⟩, r.2))
      else if c = '{' then
        match skipJsonWs rest with
        | d :: rest2 =>
          if d = '}' then some (Json.jobj [], rest2)
          else
            (parseJsonMembers fuel (skipJsonWs rest)).map (fun r => (Json.jobj r.1, r.2))
        | [] => none
      else if c = '[' then
        match skipJsonWs rest with
        | d :: rest2 =>
          if d = ']' then some (Json.jarr [], rest2)
          else
            (parseJsonElements fuel (skipJsonWs rest)).map (fun r => (Json.jarr r.1, r.2))
        | [] => none
      else if isPrefixL (("true" : String).data) (c :: rest) then
        some (Json.jbool true, (c :: rest).drop 4)
      else if isPrefixL (("false" : String).data) (c :: rest) then
        some (Json.jbool false, (c :: rest).drop 5)
      else if isPrefixL (("null" : String).data) (c :: rest) then
        some (Json.jnull, (c :: rest).drop 4)
      else
        (parseJsonNumber (c :: rest)).map (fun r => (Json.jnum ⟨r.1⟩, r.2))

def parseJsonMembers : Nat → List Char → Option (List (String × Json) × List Char)
  | 0, _ => none
  | fuel + 1, cs =>
    match cs with
    | c :: rest =>
      if c = quoteD then
        match parseJsonStringBody (rest.length + 1) rest with
        | none => none
        | some (key, rest1) =>
          match skipJsonWs rest1 with
          | d :: rest2 =>
            if d = ':' then
              match parseJsonValue fuel rest2 with
              | none => none
              | some (v, rest3) =>
                match skipJsonWs rest3 with
                | e :: rest4 =>
                  if e = ',' then
                    (parseJsonMembers fuel (skipJsonWs rest4)).map
                      (fun r => ((⟨key⟩, v) :: r.1, r.2))
                  else if e = '}' then some ([(⟨key⟩, v)], rest4)
                  else none
                | [] => none
            else none
          | [] => none
      else none
    | [] => none

def parseJsonElements : Nat → List Char → Option (List Json × List Char)
  | 0, _ => none
  | fuel + 1, cs =>
    match parseJsonValue fuel cs with
    | none => none
    | some (v, rest1) =>
      match skipJsonWs rest1 with
      | e :: rest2 =>
        if e = ',' then
          (parseJsonElements fuel rest2).map (fun r => (v :: r.1, r.2))
        else if e = ']' then some ([v], rest2)
        else none
      | [] => none

end

/-- Model of `JSON.parse` (returning `none` where it would throw). -/
def jsonParse (s : String) : Option Json :=
  match parseJsonValue (2 * s.data.length + 4) s.data with
  | some (v, rest) => if (skipJsonWs rest).isEmpty then some v else none
  | none => none

/-! ### `parseMediaJsonFromContent` and `extractVideoUrlFromText` -/

inductive MediaType where
  | video
  | image
deriving DecidableEq

/-- Last-binding field lookup on a JSON object (JS duplicate keys: last wins). -/
def jsonField (j : Json) (key : String) : Option Json :=
  match j with
  | .jobj fields => (fields.filterMap (fun p => if p.1 = key then some p.2 else none)).getLast?
  | _ => none

/-- `parseMediaJsonFromContent`: `JSON.parse` then shape-check
`{type: 'video'|'image', url: nonblank string}`; the url is returned trimmed. -/
def parseMediaJsonFromContent (content : String) : Option (MediaType × String) :=
  match jsonParse content with
  | none => none
  | some j =>
    match jsonField j ("type"), jsonField j ("url") with
    | some (Json.jstr t), some (Json.jstr u) =>
      if (t = "video" || t = "image") && !(trimList u.data).isEmpty then
        some (if t = "video" then MediaType.video else MediaType.image, jsTrim u)
      else none
    | _, _ => none

/-- Stop characters of the bare-URL regex character class. -/
def isUrlStop (c : Char) : Bool :=
  c.isWhitespace || c = quoteD || c = quoteS || c = '<' || c = '>' || c = backtickChar

/-- Match `https?:\/\/` case-insensitively at the head; returns the matched
scheme characters (original case) and the remainder. -/
def schemeSplitAt (cs : List Char) : Option (List Char × List Char) :=
  match cs with
  | a :: b :: c :: d :: rest =>
    if foldEq a 'h' && foldEq b 't' && foldEq c 't' && foldEq d 'p' then
      match rest with
      | e :: rest2 =>
        if foldEq e 's' then
          match rest2 with
          | f :: g :: h :: tail =>
            if f = ':' && g = '/' && h = '/' then some ([a, b, c, d, e, f, g, h], tail) else none
          | _ => none
        else
          match rest with
          | f :: g :: h :: tail =>
            if f = ':' && g = '/' && h = '/' then some ([a, b, c, d, f, g, h], tail) else none
          | _ => none
      | [] => none
    else none
  | _ => none

/-- Match of `/https?:\/\/[^\s"'<>`]+/i` anchored at the head of the list. -/
def urlTokenAt (cs : List Char) : Option (List Char) :=
  match schemeSplitAt cs with
  | some (scheme, tail) =>
    let run := tail.takeWhile (fun c => !isUrlStop c)
    if run.isEmpty then none else some (scheme ++ run)
  | none => none

/-- Leftmost match of the bare-URL regex. -/
def scanFirstUrl : List Char → Option (List Char)
  | [] => none
  | c :: rest =>
    match urlTokenAt (c :: rest) with
    | some m => some m
    | none => scanFirstUrl rest

/-- `['"]([^'"]+)['"]`: an opening quote, a maximal nonempty run of
non-quote characters, and a closing quote (either kind). -/
def quotedValue (cs : List Char) : Option (List Char) :=
  match cs with
  | q :: rest =>
    if q = quoteD || q = quoteS then
      let grp := rest.takeWhile (fun c => !(c = quoteD || c = quoteS))
      if grp.isEmpty then none
      else
        match rest.drop grp.length with
        | q2 :: _ => if q2 = quoteD || q2 = quoteS then some grp else none
        | [] => none
    else none
  | [] => none

/-- `(?:src|poster)=['"]...['"]` (case-insensitive; `src` tried first,
`poster` only for the `<video>` regex). -/
def attrAssign (withPoster : Bool) (cs : List Char) : Option (List Char) :=
  if isPrefixCI (("src=" : String).data) cs then quotedValue (cs.drop 4)
  else if withPoster && isPrefixCI (("poster=" : String).data) cs then quotedValue (cs.drop 7)
  else none

/-- `\s(?:src|poster)=...` at a fixed position. -/
def attrSpot (withPoster : Bool) (cs : List Char) : Option (List Char) :=
  match cs with
  | c :: rest => if c.isWhitespace then attrAssign withPoster rest else none
  | [] => none

/-- Backtracking of the greedy `[^>]*`: try the attribute at offsets
`a, a-1, ..., 0` (longest gap first, as the greedy star does). -/
def attrFromPos (withPoster : Bool) (cs : List Char) : Nat → Option (List Char)
  | 0 => attrSpot withPoster cs
  | a + 1 =>
    match attrSpot withPoster (cs.drop (a + 1)) with
    | some g => some g
    | none => attrFromPos withPoster cs a

/-- Leftmost match of `/<TAG[^>]*\s(?:src|poster)=['"]([^'"]+)['"]/i`,
returning the captured group. -/
def htmlTagMatch (tag : List Char) (withPoster : Bool) : List Char → Option (List Char)
  | [] => none
  | c :: rest =>
    match
      (if isPrefixCI tag (c :: rest) then
        let body := (c :: rest).drop tag.length
        attrFromPos withPoster body (body.takeWhile (fun ch => !(ch = '>'))).length
      else none) with
    | some g => some g
    | none => htmlTagMatch tag withPoster rest

/-- Match of `/!\[[^\]]*]\((https?:\/\/[^)]+)\)/i` anchored at the head. -/
def markdownAt (cs : List Char) : Option (List Char) :=
  match cs with
  | c1 :: c2 :: rest =>
    if c1 = '!' && c2 = '[' then
      let alt := rest.takeWhile (fun c => !(c = ']'))
      match rest.drop alt.length with
      | d1 :: d2 :: rest2 =>
        if d1 = ']' && d2 = '(' then
          match schemeSplitAt rest2 with
          | some (scheme, tail) =>
            let run := tail.takeWhile (fun c => !(c = ')'))
            if run.isEmpty then none
            else
              match tail.drop run.length with
              | e :: _ => if e = ')' then some (scheme ++ run) else none
              | [] => none
          | none => none
        else none
      | _ => none
    else none
  | _ => none

def markdownMatch : List Char → Option (List Char)
  | [] => none
  | c :: rest =>
    match markdownAt (c :: rest) with
    | some m => some m
    | none => markdownMatch rest

/-- `(\.mp4|\.mov|\.webm|\.mkv)(\?|#|$)` at a fixed position. -/
def extOne (pat : String) (cs : List Char) : Bool :=
  isPrefixL pat.data cs &&
    (match cs.drop pat.data.length with
     | [] => true
     | c :: _ => c = '?' || c = '#')

def hasVideoExt : List Char → Bool
  | [] => false
  | c :: rest =>
    (extOne (".mp4") (c :: rest) || extOne (".mov") (c :: rest)
      || extOne (".webm") (c :: rest) || extOne (".mkv") (c :: rest))
      || hasVideoExt rest

/-- JSON-envelope branch of `extractVideoUrlFromText` (video type only;
an image envelope or a parse failure falls through). -/
def jsonBranch (trimmed : List Char) : Option (List Char) :=
  match parseMediaJsonFromContent ⟨trimmed⟩ with
  | some (MediaType.video, url) => if url.data.isEmpty then none else some url.data
  | _ => none

def htmlVideoBranch (trimmed : List Char) : Option (List Char) :=
  (htmlTagMatch (("<video" : String).data) true trimmed).bind
    (fun g => let c := trimList g; if c.isEmpty then none else some c)

def htmlSourceBranch (trimmed : List Char) : Option (List Char) :=
  (htmlTagMatch (("<source" : String).data) false trimmed).bind
    (fun g => let c := trimList g; if c.isEmpty then none else some c)

def mdBranch (trimmed : List Char) : Option (List Char) :=
  (markdownMatch trimmed).bind
    (fun g => let c := trimList g; if c.isEmpty then none else some c)

/-- Final branch: the first bare URL; the extension / `/video/` / `video`
heuristics are mirrored from the source, where every arm returns the
candidate. -/
def urlBranch (trimmed : List Char) : Option (List Char) :=
  match scanFirstUrl trimmed with
  | none => none
  | some m =>
    let candidate := trimList m
    let lower := lowerList candidate
    if hasVideoExt lower then some candidate
    else if containsL (("/video/" : String).data) lower then some candidate
    else if containsL (("video" : String).data) lower then some candidate
    else some candidate

/-- `extractVideoUrlFromText`: JSON envelope, `<video>`, `<source>`,
markdown link, then bare URL. -/
def extractVideoUrlFromText (content : String) : Option String :=
  let trimmed := trimList content.data
  if trimmed.isEmpty then none
  else
    match jsonBranch trimmed with
    | some u => some ⟨u⟩
    | none =>
      match htmlVideoBranch trimmed with
      | some u => some ⟨u⟩
      | none =>
        match htmlSourceBranch trimmed with
        | some u => some ⟨u⟩
        | none =>
          match mdBranch trimmed with
          | some u => some ⟨u⟩
          | none => (urlBranch trimmed).map (fun cs => (⟨cs⟩ : String))

/-- Content-to-URL step of `generateViaExternalChat` (after the HTTP response):
missing/empty content and an unparsable video link are hard errors, so no
`GenerateResult` is produced for them. -/
def resolveExternalChatVideoUrl (content : Option String) : Except String String :=
  match content with
  | none => Except.error ("上游返回缺少有效内容")
  | some c =>
    if c.data.isEmpty then Except.error ("上游返回缺少有效内容")
    else
      match extractVideoUrlFromText c with
      | none => Except.error ("无法从上游响应中解析视频链接")
      | some url => Except.ok url

/-! ### Prompt processor (two module variants) -/

def fenceToken : List Char := [backtickChar, backtickChar, backtickChar]

/-- Model of `stripCodeFence`: `/^```(?:\w+)?\s*([\s\S]*?)\s*```$/` — a fenced
string has the three-backtick delimiters at both ends; the group is the middle
after greedily dropping a leading word run (the language tag) and surrounding
whitespace.  An empty group is falsy, so the text is returned unchanged. -/
def stripCodeFence (text : String) : String :=
  let cs := text.data
  if 6 ≤ cs.length && isPrefixL fenceToken cs && isPrefixL fenceToken cs.reverse then
    let middle := (cs.drop 3).take (cs.length - 6)
    let group := dropTrail ((middle.dropWhile isWordCharB).dropWhile wsChar)
    if group.isEmpty then text else ⟨trimList group⟩
  else text

def promptFieldKeys : List String :=
  ["prompt", "rewritten_prompt", "translated_prompt", "content", "result"]

/-- First candidate key bound to a nonempty string in the parsed JSON. -/
def firstCandidateField (j : Json) : List String → Option String
  | [] => none
  | k :: rest =>
    match jsonField j k with
    | some (Json.jstr s) => if s.data.isEmpty then firstCandidateField j rest else some s
    | _ => firstCandidateField j rest

/-- `cleaned.replace(/^['"]|['"]$/g, '')`: drop one leading and one trailing
quote character. -/
def stripOuterQuotes (cs : List Char) : List Char :=
  let cs1 :=
    match cs with
    | c :: rest => if c = quoteD || c = quoteS then rest else cs
    | [] => []
  match cs1.reverse with
  | c :: restRev => if c = quoteD || c = quoteS then restRev.reverse else cs1
  | [] => cs1

/-- `extractFinalPrompt` (identical in both module variants). -/
def extractFinalPrompt (raw : String) : String :=
  let cleaned := stripCodeFence (jsTrim raw)
  if cleaned.data.isEmpty then ""
  else
    match jsonParse cleaned with
    | some j =>
      match firstCandidateField j promptFieldKeys with
      | some v => jsTrim v
      | none => jsTrim ⟨stripOuterQuotes cleaned.data⟩
    | none => jsTrim ⟨stripOuterQuotes cleaned.data⟩

/-- Array-item extraction of the first variant's `normalizeModelText`. -/
def itemTextV1 (j : Json) : String :=
  match j with
  | Json.jstr s => s
  | Json.jobj _ =>
    match jsonField j ("text") with
    | some (Json.jstr t) => t
    | _ => ""
  | _ => ""

/-- `normalizeModelText` of the first module variant: a string is trimmed, an
array is joined over string items and `text` fields, everything else is empty
(`none` models `undefined`). -/
def normalizeModelTextV1 : Option Json → String
  | some (Json.jstr s) => jsTrim s
  | some (Json.jarr items) =>
    jsTrim (String.intercalate ("\n") ((items.map itemTextV1).filter (fun s => !s.data.isEmpty)))
  | _ => ""

def ofield (j : Option Json) (key : String) : Option Json :=
  match j with
  | some v => jsonField v key
  | none => none

/-- Optional-chain index access; modelled for arrays (the only shape the
claims exercise; JS would also read property `"0"` of plain objects). -/
def oindex (j : Option Json) (i : Nat) : Option Json :=
  match j with
  | some (Json.jarr items) => items.get? i
  | _ => none

/-- `data?.choices?.[0]?.message?.content`. -/
def chatContentPath (payload : Json) : Option Json :=
  ofield (ofield (oindex (ofield (some payload) ("choices")) 0) ("message")) ("content")

mutual

def jsonDepth : Json → Nat
  | .jarr items => 1 + jsonDepthList items
  | .jobj fields => 1 + jsonDepthFields fields
  | _ => 1

def jsonDepthList : List Json → Nat
  | [] => 0
  | j :: rest => Nat.max (jsonDepth j) (jsonDepthList rest)

def jsonDepthFields : List (String × Json) → Nat
  | [] => 0
  | p :: rest => Nat.max (jsonDepth p.2) (jsonDepthFields rest)

end

/-- `normalizeModelText` of the second module variant: strings are trimmed;
objects are probed at `text`, `text.value`, `output_text`, `content` (string
or array), `parts`, `output`, `messages`; arrays are mapped recursively and
joined.  Fuel bounds the recursion depth (any fuel above the JSON depth is
exact). -/
def objStringAt (j : Json) (key : String) : Option String :=
  match jsonField j key with
  | some (Json.jstr s) => some s
  | _ => none

def objArrAt (j : Json) (key : String) : Option (List Json) :=
  match jsonField j key with
  | some (Json.jarr items) => some items
  | _ => none

/-- `item.text` is an object carrying a string `value`. -/
def textValueAt (j : Json) : Option String :=
  match jsonField j ("text") with
  | some (Json.jobj tf) => objStringAt (Json.jobj tf) ("value")
  | _ => none

def nmt2 : Nat → Option Json → String
  | _, none => ""
  | 0, some _ => ""
  | fuel + 1, some j =>
    match j with
    | Json.jstr s => jsTrim s
    | Json.jobj _ =>
      match objStringAt j ("text") with
      | some t => jsTrim t
      | none =>
        match textValueAt j with
        | some v => jsTrim v
        | none =>
          match objStringAt j ("output_text") with
          | some s => jsTrim s
          | none =>
            match objStringAt j ("content") with
            | some s => jsTrim s
            | none =>
              match objArrAt j ("content") with
              | some items => nmt2 fuel (some (Json.jarr items))
              | none =>
                match objArrAt j ("parts") with
                | some items => nmt2 fuel (some (Json.jarr items))
                | none =>
                  match objArrAt j ("output") with
                  | some items => nmt2 fuel (some (Json.jarr items))
                  | none =>
                    match objArrAt j ("messages") with
                    | some items => nmt2 fuel (some (Json.jarr items))
                    | none => ""
    | Json.jarr items =>
      jsTrim (String.intercalate ("\n")
        ((items.map (fun it => nmt2 fuel (some it))).filter (fun s => !s.data.isEmpty)))
    | _ => ""

/-- `firstNonEmpty`: the first candidate whose trim is nonempty, trimmed. -/
def firstNonEmptyS : List String → String
  | [] => ""
  | c :: rest => if (trimList c.data).isEmpty then firstNonEmptyS rest else jsTrim c

/-- `extractCompletionContent` of the second module variant. -/
def extractCompletionContent (payload : Json) : String :=
  match payload with
  | Json.jnull | Json.jbool _ | Json.jnum _ | Json.jstr _ => ""
  | _ =>
    let fuel := jsonDepth payload + 1
    let firstChoice := oindex (ofield (some payload) ("choices")) 0
    let message := ofield firstChoice ("message")
    let firstCandidate := oindex (ofield (some payload) ("candidates")) 0
    let candidateContent := ofield firstCandidate ("content")
    let firstDataItem := oindex (ofield (some payload) ("data")) 0
    firstNonEmptyS [
      nmt2 fuel (ofield message ("content")),
      nmt2 fuel (ofield firstChoice ("text")),
      nmt2 fuel (ofield (some payload) ("output_text")),
      nmt2 fuel (ofield (some payload) ("output")),
      nmt2 fuel (ofield candidateContent ("parts")),
      nmt2 fuel (ofield firstDataItem ("text")),
      nmt2 fuel (ofield (some payload) ("content"))]

def EMPTY_PROMPT_PROCESSOR_ERROR : String := "Prompt processor returned empty content"

/-- Post-response step of the first variant's `runPromptCompletion`:
extraction, final-prompt parsing, and the fatal empty-content error. -/
def completionResultV1 (payload : Json) (_inputPrompt : String) : Except String String :=
  let content := normalizeModelTextV1 (chatContentPath payload)
  let result := extractFinalPrompt content
  if result.data.isEmpty then Except.error EMPTY_PROMPT_PROCESSOR_ERROR
  else Except.ok result

/-- Post-response step of the second variant's `runPromptCompletion`. -/
def completionResultV2core (payload : Json) : Except String String :=
  let content := extractCompletionContent payload
  let result := extractFinalPrompt content
  if result.data.isEmpty then Except.error EMPTY_PROMPT_PROCESSOR_ERROR
  else Except.ok result

def isPromptProcessorEmptyContentError (msg : String) : Bool :=
  containsL EMPTY_PROMPT_PROCESSOR_ERROR.data msg.data

/-- `runPromptCompletionWithFallback`: the empty-content error becomes a
no-op returning the input prompt. -/
def completionResultV2 (payload : Json) (inputPrompt : String) : Except String String :=
  match completionResultV2core payload with
  | Except.ok r => Except.ok r
  | Except.error e =>
    if isPromptProcessorEmptyContentError e then Except.ok inputPrompt else Except.error e

/-- A standard chat-completion response carrying a single string content. -/
def chatPayload (s : String) : Json :=
  Json.jobj [("choices",
    Json.jarr [Json.jobj [("message", Json.jobj [("content", Json.jstr s)])]])]

def DEFAULT_FILTER_PROMPT : String :=
  "You are a safety prompt filter for video generation. Rewrite the user prompt into a safe version while preserving creative intent as much as possible. Return only the rewritten prompt text."

def DEFAULT_TRANSLATE_PROMPT : String :=
  "Translate the user prompt into clear, natural English for video generation. Preserve details, style, and constraints. Return only the translated prompt text."

structure PromptProcessingOptions where
  filterEnabled : Bool
  filterModelId : String
  filterPrompt : String
  translateEnabled : Bool
  translateModelId : String
  translatePrompt : String

structure ProcessedPromptResult where
  originalPrompt : String
  filteredPrompt : Option String
  translatedPrompt : Option String
  processedPrompt : String
deriving DecidableEq

def normalizeOptions (c : PromptProcessingOptions) : PromptProcessingOptions :=
  { filterEnabled := c.filterEnabled,
    filterModelId := jsTrim c.filterModelId,
    filterPrompt := jsTrim (if c.filterPrompt.data.isEmpty then DEFAULT_FILTER_PROMPT else c.filterPrompt),
    translateEnabled := c.translateEnabled,
    translateModelId := jsTrim c.translateModelId,
    translatePrompt := jsTrim (if c.translatePrompt.data.isEmpty then DEFAULT_TRANSLATE_PROMPT else c.translatePrompt) }

def validateOptions (o : PromptProcessingOptions) : Except String Unit :=
  if o.filterEnabled && (o.filterModelId.data.isEmpty || o.filterPrompt.data.isEmpty) then
    Except.error ("Prompt filter is enabled but filter model or prompt is not configured")
  else if o.translateEnabled && (o.translateModelId.data.isEmpty || o.translatePrompt.data.isEmpty) then
    Except.error ("Prompt translation is enabled but translation model or prompt is not configured")
  else if o.translateEnabled && (o.filterModelId.data.isEmpty || o.filterPrompt.data.isEmpty) then
    Except.error ("Prompt translation requires filter model and filter prompt to sanitize translated content")
  else Except.ok ()

/-- `processVideoPrompt` with the upstream chat-completion call abstracted as
`oracle modelId instruction input` (both variants share this pipeline; they
differ only in the completion step passed as the oracle). -/
def processVideoPromptModel (oracle : String → String → String → Except String String)
    (config : PromptProcessingOptions) (originalPrompt : String) :
    Except String ProcessedPromptResult :=
  let basePrompt : String := jsTrim originalPrompt
  if basePrompt.data.isEmpty then Except.ok ⟨basePrompt, none, none, basePrompt⟩
  else
    let options := normalizeOptions config
    if !options.filterEnabled && !options.translateEnabled then
      Except.ok ⟨basePrompt, none, none, basePrompt⟩
    else do
      validateOptions options
      let afterFilter ←
        if options.filterEnabled then
          (oracle options.filterModelId options.filterPrompt basePrompt).map some
        else Except.ok none
      let currentPrompt := afterFilter.getD basePrompt
      if options.translateEnabled then do
        let translated ← oracle options.translateModelId options.translatePrompt currentPrompt
        let refiltered ← oracle options.filterModelId options.filterPrompt translated
        Except.ok ⟨basePrompt, some refiltered, some translated, refiltered⟩
      else Except.ok ⟨basePrompt, afterFilter, none, currentPrompt⟩

/-! ### Lemmas: trimming -/

theorem dwIdem {α : Type} (p : α → Bool) (l : List α) :
    (l.dropWhile p).dropWhile p = l.dropWhile p := by
  induction l with
  | nil => rfl
  | cons c rest ih =>
    by_cases h : p c
    · simp [List.dropWhile_cons, h, ih]
    · simp [List.dropWhile_cons, h]

theorem dropTrailIdem (l : List Char) : dropTrail (dropTrail l) = dropTrail l := by
  unfold dropTrail
  rw [List.reverse_reverse, dwIdem]

theorem dropTrail_cons (c : Char) (rest : List Char) :
    dropTrail (c :: rest) =
      if (rest.reverse.dropWhile wsChar).isEmpty then (if wsChar c then [] else [c])
      else c :: dropTrail rest := by
  unfold dropTrail
  simp only [List.reverse_cons]
  rw [List.dropWhile_append]
  by_cases h : (rest.reverse.dropWhile wsChar).isEmpty
  · by_cases hc : wsChar c <;> simp [h, hc, List.dropWhile_cons]
  · simp [h, List.reverse_append]

theorem allWs_of_revDrop (rest : List Char) (h : (rest.reverse.dropWhile wsChar).isEmpty = true) :
    List.dropWhile wsChar rest = [] := by
  rw [List.isEmpty_iff] at h
  rw [List.dropWhile_eq_nil_iff] at h ⊢
  intro a ha
  exact h a (List.mem_reverse.mpr ha)

theorem dwDropTrailComm (l : List Char) :
    (dropTrail l).dropWhile wsChar = dropTrail (l.dropWhile wsChar) := by
  induction l with
  | nil => rfl
  | cons c rest ih =>
    rw [dropTrail_cons, List.dropWhile_cons]
    by_cases h : (rest.reverse.dropWhile wsChar).isEmpty = true
    · rw [if_pos h]
      have hrest := allWs_of_revDrop rest h
      by_cases hc : wsChar c = true
      · rw [if_pos hc, if_pos hc, hrest]
        rfl
      · rw [if_neg hc, if_neg hc]
        rw [List.dropWhile_cons, if_neg hc]
        rw [dropTrail_cons, if_pos h, if_neg hc]
    · rw [if_neg h]
      by_cases hc : wsChar c = true
      · rw [if_pos hc, List.dropWhile_cons, if_pos hc, ih]
      · rw [if_neg hc, List.dropWhile_cons, if_neg hc, dropTrail_cons, if_neg h]

theorem trimListIdem (l : List Char) : trimList (trimList l) = trimList l := by
  unfold trimList
  rw [dwDropTrailComm, dwIdem, dropTrailIdem]

/-! ### Lemmas: the blocklist match loop -/

theorem collectMatched_sublist (prompt np : String) (rules : List BlocklistRule)
    (seen : List String) :
    (collectMatched prompt np rules seen).Sublist (rules.map BlocklistRule.raw) := by
  induction rules generalizing seen with
  | nil => simp [collectMatched]
  | cons r rest ih =>
    simp only [collectMatched, List.map_cons]
    split
    · exact (ih seen).cons r.raw
    · split
      · exact (ih _).cons₂ r.raw
      · exact (ih seen).cons r.raw

theorem collectMatched_pairwise (prompt np : String) (rules : List BlocklistRule)
    (seen : List String) :
    (collectMatched prompt np rules seen).Pairwise
        (fun a b => normalizeText a ≠ normalizeText b) ∧
    ∀ x ∈ collectMatched prompt np rules seen, seen.contains (normalizeText x) = false := by
  induction rules generalizing seen with
  | nil => simp [collectMatched]
  | cons r rest ih =>
    simp only [collectMatched]
    split
    · exact ih seen
    · rename_i hskip
      split
    

      · rename_i hmatch
        obtain ⟨ihPw, ihSeen⟩ := ih (normalizeText r.raw :: seen)
        have hskip' : ((normalizeText r.raw).data.isEmpty
            || seen.contains (normalizeText r.raw)) = false := by
          revert hskip
          cases ((normalizeText r.raw).data.isEmpty || seen.contains (normalizeText r.raw)) <;> simp
        have hseenF : seen.contains (normalizeText r.raw) = false := by
          rcases Bool.or_eq_false_iff.mp hskip' with ⟨_, h2⟩
          exact h2
        constructor
        · refine List.Pairwise.cons ?_ ihPw
          intro y hy
          have := ihSeen y hy
          intro hEq
          rw [List.contains_cons] at this
          rcases Bool.or_eq_false_iff.mp this with ⟨h1, _⟩
          rw [hEq] at h1
          simp at h1
        · intro x hx
          rcases List.mem_cons.mp hx with h | h
          · rw [h]
            exact hseenF
          · have := ihSeen x h
            rw [List.contains_cons] at this
            exact (Bool.or_eq_false_iff.mp this).2
      · exact ih seen

theorem collectMatched_mem (prompt np : String) (rules : List BlocklistRule)
    (seen : List String) :
    ∀ x ∈ collectMatched prompt np rules seen,
      ∃ rule ∈ rules, rule.raw = x ∧ ruleMatches rule prompt np = true := by
  induction rules generalizing seen with
  | nil => simp [collectMatched]
  | cons r rest ih =>
    simp only [collectMatched]
    split
    · intro x hx
      obtain ⟨rule, hmem, hrw, hm⟩ := ih seen x hx
      exact ⟨rule, List.mem_cons_of_mem _ hmem, hrw, hm⟩
    · split
      · rename_i hmatch
        intro x hx
        rcases List.mem_cons.mp hx with h | h
        · exact ⟨r, List.mem_cons_self _ _, h.symm, hmatch⟩
        · obtain ⟨rule, hmem, hrw, hm⟩ := ih _ x h
          exact ⟨rule, List.mem_cons_of_mem _ hmem, hrw, hm⟩
      · intro x hx
        obtain ⟨rule, hmem, hrw, hm⟩ := ih seen x hx
        exact ⟨rule, List.mem_cons_of_mem _ hmem, hrw, hm⟩

theorem buildRegexRule_raw (e : RegexEngine) (raw pattern flags : String) (r : BlocklistRule)
    (h : buildRegexRule e raw pattern flags = some r) : r.raw = raw := by
  unfold buildRegexRule at h
  dsimp only at h
  repeat' split at h
  all_goals
    first
    | (rw [Option.some.injEq] at h; rw [← h]; rfl)
    | exact Option.noConfusion h

theorem regexRuleFromRest_raw (e : RegexEngine) (raw : String) (restRaw : List Char)
    (r : BlocklistRule) (h : regexRuleFromRest e raw restRaw = some r) : r.raw = raw := by
  unfold regexRuleFromRest at h
  dsimp only at h
  repeat' split at h
  all_goals
    first
    | exact buildRegexRule_raw _ _ _ _ _ h
    | exact Option.noConfusion h

theorem parseRule_raw (e : RegexEngine) (line : String) (r : BlocklistRule)
    (h : parseRule e line = some r) : r.raw = ⟨trimList line.data⟩ := by
  unfold parseRule at h
  dsimp only at h
  repeat' split at h
  all_goals
    first
    | exact regexRuleFromRest_raw _ _ _ _ h
    | exact buildRegexRule_raw _ _ _ _ _ h
    | (rw [Option.some.injEq] at h; rw [← h]; rfl)
    | exact Option.noConfusion h

theorem parseBlocklistWords_trimFixed (R x : String) (hx : x ∈ parseBlocklistWords R) :
    trimList x.data = x.data := by
  unfold parseBlocklistWords at hx
  rw [List.mem_map] at hx
  obtain ⟨l, hl, rfl⟩ := hx
  rw [List.mem_filter] at hl
  obtain ⟨hl1, _⟩ := hl
  rw [List.mem_map] at hl1
  obtain ⟨l0, _, rfl⟩ := hl1
  exact trimListIdem l0

/-! ### Claim theorems: blocklist -/

/-- C1: `assertPromptAllowedWithConfig` throws exactly when `blocklistEnabled`
is true and `findBlockedWords` on the prompt and configured rule text is
non-empty; the error message is the safety-policy prefix, a colon-space, and
the comma-joined matched raw rule lines; with blocking disabled it returns
normally for every prompt and rule set. -/
theorem assertPromptAllowedWithConfig_spec (e : RegexEngine) (prompt : String)
    (config : PromptBlocklistConfig) :
    assertPromptAllowedWithConfig e prompt config =
      if config.blocklistEnabled.getD false = true
          ∧ findBlockedWords e prompt (config.blocklistWords.getD ("")) ≠ [] then
        Except.error (PROMPT_BLOCKED_ERROR_PREFIX ++ ": " ++
          String.intercalate (", ") (findBlockedWords e prompt (config.blocklistWords.getD (""))))
      else Except.ok () := by
  unfold assertPromptAllowedWithConfig buildPromptBlockedMessage
  by_cases hb : config.blocklistEnabled.getD false = false
  · have : ¬ (config.blocklistEnabled.getD false = true
        ∧ findBlockedWords e prompt (config.blocklistWords.getD ("")) ≠ []) := by
      rw [hb]
      simp
    simp [hb, this]
  · have hb' : config.blocklistEnabled.getD false = true := by
      revert hb
      cases config.blocklistEnabled.getD false <;> simp
    cases hm : findBlockedWords e prompt (config.blocklistWords.getD ("")) with
    | nil => simp [hb', hm]
    | cons a as => simp [hb', hm]

/-- C2: `findBlockedWords` is deterministic (it is a pure function of its
inputs), its result is a sublist of the parsed rules' raw lines in rule
order (first-occurrence order), the normalized (trimmed, lowercased) texts
of its entries are pairwise distinct (each rule line appears at most once,
de-duplicated by normalized text), and every entry is the raw line of a
parsed rule that matched the prompt. -/
theorem findBlockedWords_dedup_spec (e : RegexEngine) (P R : String) :
    findBlockedWords e P R = findBlockedWords e P R ∧
    (findBlockedWords e P R).Pairwise (fun a b => normalizeText a ≠ normalizeText b) ∧
    (findBlockedWords e P R).Sublist
      (((parseBlocklistWords R).filterMap (parseRule e)).map BlocklistRule.raw) ∧
    ∀ x ∈ findBlockedWords e P R,
      ∃ rule ∈ (parseBlocklistWords R).filterMap (parseRule e),
        rule.raw = x ∧ ruleMatches rule P (normalizeText P) = true := by
  refine ⟨rfl, ?_, ?_, ?_⟩ <;> unfold findBlockedWords <;>
    by_cases hnp : (normalizeText P).data.isEmpty = true
  · simp [hnp]
  · simp only [hnp, if_neg, Bool.false_eq_true, not_false_eq_true, ite_false]
    exact (collectMatched_pairwise P (normalizeText P) _ []).1
  · simp [hnp]
  · simp only [hnp, if_neg, Bool.false_eq_true, not_false_eq_true, ite_false]
    exact collectMatched_sublist P (normalizeText P) _ []
  · simp [hnp]
  · simp only [hnp, if_neg, Bool.false_eq_true, not_false_eq_true, ite_false]
    exact collectMatched_mem P (normalizeText P) _ []

/-- C3: for every regex engine, a `word:` rule with value `cat` matches the
prompt `the cat sat` (whole-word boundary match) but not `concatenate`,
while a `substr:` rule with value `cat` matches `concatenate`. -/
theorem wordAndSubstrRuleVectors (e : RegexEngine) :
    findBlockedWords e ("the cat sat") ("word:cat") = ["word:cat"] ∧
    findBlockedWords e ("concatenate") ("word:cat") = [] ∧
    findBlockedWords e ("concatenate") ("substr:cat") = ["substr:cat"] :=
  ⟨rfl, rfl, rfl⟩

/-- C9: a rule line that fails to parse — in particular any `re:`/`regex:`
or `/pattern/flags` line whose pattern the regex engine rejects as invalid —
is silently dropped: `findBlockedWords` (a total function, so it never
throws) never reports that line, for any prompt and rule text. -/
theorem invalidRegexLineDropped (e : RegexEngine) (P R line : String)
    (_hmem : line ∈ parseBlocklistWords R) (hparse : parseRule e line = none) :
    line ∉ findBlockedWords e P R := by
  intro hin
  unfold findBlockedWords at hin
  by_cases hnp : (normalizeText P).data.isEmpty = true
  · simp [hnp] at hin
  · simp only [hnp, Bool.false_eq_true, not_false_eq_true, ite_false] at hin
    obtain ⟨rule, hr, hraw, _⟩ := collectMatched_mem P (normalizeText P) _ [] line hin
    rw [List.mem_filterMap] at hr
    obtain ⟨l, hlmem, hlparse⟩ := hr
    have h1 := parseRule_raw e l rule hlparse
    have h2 : (⟨trimList l.data⟩ : String) = l := by
      have := parseBlocklistWords_trimFixed R l hlmem
      rw [this]
    have hline : line = l := by
      rw [← hraw, h1, h2]
    rw [hline] at hparse
    rw [hparse] at hlparse
    exact Option.noConfusion hlparse

/-- C9 witness: with a parenthesis-checking engine, the invalid rule line
`re:(unbalanced` is dropped and never reported. -/
theorem invalidRegexLineDropped_witness :
    ("re:(unbalanced" : String) ∉
      findBlockedWords parenCheckEngine ("some (unbalanced prompt") ("re:(unbalanced") :=
  invalidRegexLineDropped parenCheckEngine ("some (unbalanced prompt") ("re:(unbalanced")
    ("re:(unbalanced") (by decide) (by rfl)

/-! ### Lemmas: substring containment -/

theorem isPrefixL_refl (l : List Char) : isPrefixL l l = true := by
  induction l with
  | nil => rfl
  | cons c rest ih => simp [isPrefixL, ih]

theorem isPrefixL_trans (a b c : List Char) (h1 : isPrefixL a b = true)
    (h2 : isPrefixL b c = true) : isPrefixL a c = true := by
  induction a generalizing b c with
  | nil => rfl
  | cons x xs ih =>
    cases b with
    | nil => simp [isPrefixL] at h1
    | cons y ys =>
      cases c with
      | nil => simp [isPrefixL] at h2
      | cons z zs =>
        simp only [isPrefixL, Bool.and_eq_true, decide_eq_true_eq] at h1 h2 ⊢
        obtain ⟨hxy, h1'⟩ := h1
        obtain ⟨hyz, h2'⟩ := h2
        exact ⟨hxy.trans hyz, ih ys zs h1' h2'⟩

theorem containsL_of_prefix (n hay : List Char) (h : isPrefixL n hay = true) :
    containsL n hay = true := by
  cases hay with
  | nil =>
    cases n with
    | nil => rfl
    | cons a as => simp [isPrefixL] at h
  | cons c rest => simp [containsL, h]

theorem containsL_append_left (n pre hay : List Char) (h : containsL n hay = true) :
    containsL n (pre ++ hay) = true := by
  induction pre with
  | nil => simpa using h
  | cons c rest ih => simp [containsL, ih]

theorem containsL_mono (n1 n2 hay : List Char) (hpre : isPrefixL n1 n2 = true)
    (h : containsL n2 hay = true) : containsL n1 hay = true := by
  induction hay with
  | nil =>
    cases n2 with
    | nil =>
      cases n1 with
      | nil => rfl
      | cons a as => simp [isPrefixL] at hpre
    | cons b bs => simp [containsL, List.isEmpty] at h
  | cons c rest ih =>
    simp only [containsL, Bool.or_eq_true] at h ⊢
    rcases h with h | h
    · exact Or.inl (isPrefixL_trans n1 n2 (c :: rest) hpre h)
    · exact Or.inr (ih h)

/-! ### Claim theorems: video channel adapter -/

/-- C5: the exact JSON media envelope yields its URL; plain unmarked text
with no URL yields none; and on such content the external-chat path fails
with a hard error instead of producing a result. -/
theorem extractVideoUrl_vectors :
    extractVideoUrlFromText ("\x7b\"type\":\"video\",\"url\":\"https://x/y.mp4\"\x7d") =
      some ("https://x/y.mp4") ∧
    extractVideoUrlFromText ("a plain sentence with no links at all.") = none ∧
    resolveExternalChatVideoUrl (some ("a plain sentence with no links at all.")) =
      Except.error ("无法从上游响应中解析视频链接") := by
  refine ⟨by decide, by decide, by rfl⟩

/-- C6 counterexample: the duration `125s` is not one of the configured tier
labels (10s/15s/25s), yet through the legacy model string
`sora2-landscape-125s` the cost bucketing selects the 25s tier price (3)
rather than the lowest (10s) tier price (1), because bucketing is a
substring test. -/
theorem getTypeAndCost_unrecognizedDuration_cex :
    (getTypeAndCost ("sora2-landscape-" ++ "125s") (Pricing.mk 1 2 3)).2 = 3 ∧
    (getTypeAndCost ("sora2-landscape-" ++ "125s") (Pricing.mk 1 2 3)).2 ≠
      (Pricing.mk 1 2 3).soraVideo10s := by
  refine ⟨by decide, by decide⟩

/-- C6 (amended): for every pricing configuration and aspect ratio, a
duration of `25s` selects the 25s tier price, and a duration whose composed
legacy model string `sora2-RATIO-DURATION` contains neither `25` nor `15`
as a substring (e.g. `07s` with the standard ratios) selects the 10s
(lowest) tier price; durations such as `125s` instead fall into the tier
whose digits they contain. -/
theorem getTypeAndCost_durationBuckets {α : Type} (pricing : Pricing α) (ratio d : String)
    (h25 : strContains ("sora2-" ++ ratio ++ "-" ++ d) ("25") = false)
    (h15 : strContains ("sora2-" ++ ratio ++ "-" ++ d) ("15") = false) :
    (getTypeAndCost ("sora2-" ++ ratio ++ "-25s") pricing).2 = pricing.soraVideo25s ∧
    (getTypeAndCost ("sora2-" ++ ratio ++ "-" ++ d) pricing).2 = pricing.soraVideo10s := by
  constructor
  · have hc : strContains ("sora2-" ++ ratio ++ "-25s") ("25s") = true := by
      show containsL (("25s" : String).data) (("sora2-" ++ ratio ++ "-25s").data) = true
      rw [String.data_append]
      exact containsL_append_left _ _ _ (by decide)
    unfold getTypeAndCost
    simp [hc]
  · have h25s : strContains ("sora2-" ++ ratio ++ "-" ++ d) ("25s") = false := by
      cases hx : strContains ("sora2-" ++ ratio ++ "-" ++ d) ("25s")
      · rfl
      · have hm := containsL_mono (("25" : String).data) (("25s" : String).data)
          (("sora2-" ++ ratio ++ "-" ++ d).data) (by decide) hx
        rw [show strContains ("sora2-" ++ ratio ++ "-" ++ d) ("25") =
            containsL (("25" : String).data) (("sora2-" ++ ratio ++ "-" ++ d).data) from rfl] at h25
        rw [hm] at h25
        exact absurd h25 (by simp)
    have h15s : strContains ("sora2-" ++ ratio ++ "-" ++ d) ("15s") = false := by
      cases hx : strContains ("sora2-" ++ ratio ++ "-" ++ d) ("15s")
      · rfl
      · have hm := containsL_mono (("15" : String).data) (("15s" : String).data)
          (("sora2-" ++ ratio ++ "-" ++ d).data) (by decide) hx
        rw [show strContains ("sora2-" ++ ratio ++ "-" ++ d) ("15") =
            containsL (("15" : String).data) (("sora2-" ++ ratio ++ "-" ++ d).data) from rfl] at h15
        rw [hm] at h15
        exact absurd h15 (by simp)
    unfold getTypeAndCost
    simp [h25, h15, h25s, h15s]

/-- C6 witness: with pricing (1, 2, 3), ratio `landscape`: duration `25s`
gives the 25s tier price and duration `07s` gives the 10s tier price. -/
theorem getTypeAndCost_durationBuckets_witness :
    (getTypeAndCost ("sora2-" ++ "landscape" ++ "-25s") (Pricing.mk 1 2 3)).2 =
      (Pricing.mk 1 2 3).soraVideo25s ∧
    (getTypeAndCost ("sora2-" ++ "landscape" ++ "-" ++ "07s") (Pricing.mk 1 2 3)).2 =
      (Pricing.mk 1 2 3).soraVideo10s :=
  getTypeAndCost_durationBuckets (Pricing.mk 1 2 3) ("landscape") ("07s") (by decide) (by decide)

/-- C7: the spec's mapping vectors hold, and `mapGrokModel` passes any
already fully-qualified Grok model id through unchanged for every aspect
ratio and duration. -/
theorem providerModelMapping_spec :
    mapFlowModel ("i2v-model") ("portrait") ("15s") = "veo_2_1_fast_d_15_i2v_portrait" ∧
    mapGrokModel ("grok-imagine-1.0-video") ("landscape") ("10s") =
      "grok-imagine-1.0-video-landscape-10s" ∧
    ∀ name ratio dur : String,
      strContains (jsToLower name) ("grok-imagine-1.0-video-") = true →
      mapGrokModel name ratio dur = name := by
  refine ⟨by decide, by decide, ?_⟩
  intro name ratio dur h
  unfold mapGrokModel
  simp [h]

/-- C7 witness: a fully-qualified Grok id is returned unchanged. -/
theorem providerModelMapping_witness :
    mapGrokModel ("grok-imagine-1.0-video-portrait-15s") ("landscape") ("10s") =
      "grok-imagine-1.0-video-portrait-15s" :=
  providerModelMapping_spec.2.2 ("grok-imagine-1.0-video-portrait-15s") ("landscape") ("10s")
    (by decide)

/-! ### Lemmas: bare-URL matches carry no whitespace -/

theorem toLower_of_ws (a : Char) (h : wsChar a = true) : a.toLower = a := by
  unfold wsChar Char.isWhitespace at h
  simp only [Bool.or_eq_true, decide_eq_true_eq] at h
  rcases h with ((h | h) | h) | h <;> rw [h] <;> decide

theorem not_ws_of_toLower (a t : Char) (h : a.toLower = t) (ht : wsChar t = false) :
    wsChar a = false := by
  cases hw : wsChar a
  · rfl
  · rw [toLower_of_ws a hw] at h
    rw [h] at hw
    rw [hw] at ht
    exact absurd ht (by simp)

theorem schemeSplitAt_noWs (cs scheme tail : List Char)
    (h : schemeSplitAt cs = some (scheme, tail)) : ∀ c ∈ scheme, wsChar c = false := by
  unfold schemeSplitAt at h
  repeat' split at h
  all_goals try exact Option.noConfusion h
  all_goals
    rw [Option.some.injEq, Prod.mk.injEq] at h
    obtain ⟨hs, -⟩ := h
    subst hs
    simp only [foldEq, Bool.and_eq_true, decide_eq_true_eq] at *
    casesm* _ ∧ _
    subst_vars
    simp only [List.forall_mem_cons, List.not_mem_nil, false_implies, implies_true, and_true]
    repeat' constructor
  all_goals
    first
    | decide
    | exact not_ws_of_toLower _ _ (by assumption) (by decide)

theorem dropWhile_eq_self_of_all (p : Char → Bool) (l : List Char)
    (h : ∀ c ∈ l, p c = false) : l.dropWhile p = l := by
  cases l with
  | nil => rfl
  | cons c rest =>
    rw [List.dropWhile_cons, if_neg]
    simp [h c (List.mem_cons_self c rest)]

theorem trimList_of_noWs (l : List Char) (h : ∀ c ∈ l, wsChar c = false) :
    trimList l = l := by
  unfold trimList dropTrail
  rw [dropWhile_eq_self_of_all wsChar l h]
  rw [dropWhile_eq_self_of_all wsChar l.reverse (fun c hc => h c (List.mem_reverse.mp hc))]
  exact List.reverse_reverse l

theorem urlTokenAt_trimFixed (cs m : List Char) (h : urlTokenAt cs = some m) :
    trimList m = m := by
  unfold urlTokenAt at h
  cases hs : schemeSplitAt cs with
  | none =>
    rw [hs] at h
    exact Option.noConfusion h
  | some p =>
    obtain ⟨scheme, tail⟩ := p
    rw [hs] at h
    dsimp only at h
    split at h
    · exact Option.noConfusion h
    · rw [Option.some.injEq] at h
      subst h
      apply trimList_of_noWs
      intro c hc
      rw [List.mem_append] at hc
      rcases hc with hc | hc
      · exact schemeSplitAt_noWs cs scheme tail hs c hc
      · have hstop := List.mem_takeWhile_imp hc
        simp only [Bool.not_eq_true'] at hstop
        unfold isUrlStop at hstop
        simp only [Bool.or_eq_false_iff] at hstop
        exact hstop.1.1.1.1.1

theorem scanFirstUrl_trimFixed (cs m : List Char) (h : scanFirstUrl cs = some m) :
    trimList m = m := by
  induction cs with
  | nil => exact Option.noConfusion h
  | cons c rest ih =>
    unfold scanFirstUrl at h
    split at h
    · rename_i hat
      rw [Option.some.injEq] at h
      subst h
      exact urlTokenAt_trimFixed _ _ hat
    · exact ih h

theorem urlBranch_of_scan (t m : List Char) (h : scanFirstUrl t = some m) :
    urlBranch t = some (trimList m) := by
  unfold urlBranch
  rw [h]
  dsimp only
  repeat' split
  all_goals rfl

theorem urlBranch_none_iff (t : List Char) :
    urlBranch t = none ↔ scanFirstUrl t = none := by
  constructor
  · intro h
    cases hs : scanFirstUrl t with
    | none => rfl
    | some m =>
      rw [urlBranch_of_scan t m hs] at h
      exact Option.noConfusion h
  · intro h
    unfold urlBranch
    rw [h]

/-- C10 counterexample: on content whose `<video src=...>` tag precedes an
http URL, the extractor returns the tag's src attribute (`file.dat`), not
the first http(s) URL (`https://x/y`) that the content contains; the claim
as stated (every content containing an http(s) URL yields its first URL)
therefore fails at this input. -/
theorem extractVideoUrl_firstUrl_cex :
    extractVideoUrlFromText ("<video src=\"file.dat\"> https://x/y") = some ("file.dat") ∧
    scanFirstUrl (trimList (("<video src=\"file.dat\"> https://x/y") : String).data) =
      some (("https://x/y" : String).data) ∧
    some ("file.dat") ≠ some (("https://x/y") : String) := by
  refine ⟨by decide, by decide, by decide⟩

/-- C10 (amended): when the JSON-envelope, HTML `<video>`/`<source>` and
markdown-link branches produce no candidate, the extractor returns the
first bare http(s) URL of the trimmed content unchanged — the extension and
`video`-path heuristics never reject a found URL — and the extractor
returns `none` only when the trimmed content is empty or contains no
http(s) URL occurrence at all. -/
theorem extractVideoUrl_firstUrl (content : String) :
    (extractVideoUrlFromText content = none →
      trimList content.data = [] ∨ scanFirstUrl (trimList content.data) = none) ∧
    (∀ m : List Char,
      jsonBranch (trimList content.data) = none →
      htmlVideoBranch (trimList content.data) = none →
      htmlSourceBranch (trimList content.data) = none →
      mdBranch (trimList content.data) = none →
      scanFirstUrl (trimList content.data) = some m →
      extractVideoUrlFromText content = some ⟨m⟩) := by
  constructor
  · intro h
    unfold extractVideoUrlFromText at h
    by_cases he : (trimList content.data).isEmpty = true
    · left
      exact List.isEmpty_iff.mp he
    · right
      simp only [he, Bool.false_eq_true, not_false_eq_true, ite_false] at h
      cases hj : jsonBranch (trimList content.data) with
      | some u => rw [hj] at h; exact Option.noConfusion h
      | none =>
      rw [hj] at h
      cases hv : htmlVideoBranch (trimList content.data) with
      | some u => rw [hv] at h; exact Option.noConfusion h
      | none =>
      rw [hv] at h
      cases hsrc : htmlSourceBranch (trimList content.data) with
      | some u => rw [hsrc] at h; exact Option.noConfusion h
      | none =>
      rw [hsrc] at h
      cases hm : mdBranch (trimList content.data) with
      | some u => rw [hm] at h; exact Option.noConfusion h
      | none =>
      rw [hm] at h
      rw [← urlBranch_none_iff]
      exact Option.map_eq_none'.mp h
  · intro m h1 h2 h3 h4 h5
    have hne : (trimList content.data).isEmpty = false := by
      cases he : (trimList content.data).isEmpty
      · rfl
      · rw [List.isEmpty_iff.mp he] at h5
        exact Option.noConfusion h5
    unfold extractVideoUrlFromText
    simp only [hne, Bool.false_eq_true, not_false_eq_true, ite_false]
    rw [h1, h2, h3, h4]
    rw [urlBranch_of_scan _ m h5, scanFirstUrl_trimFixed _ m h5]
    rfl

/-- C10 witness: plain text around a bare URL with no video-like extension
or `video` path segment still yields that URL. -/
theorem extractVideoUrl_firstUrl_witness :
    extractVideoUrlFromText ("watch https://cdn.example.com/abc?id=1 now") =
      some ("https://cdn.example.com/abc?id=1") :=
  (extractVideoUrl_firstUrl ("watch https://cdn.example.com/abc?id=1 now")).2
    (("https://cdn.example.com/abc?id=1" : String).data)
    (by rfl) (by rfl) (by rfl) (by rfl) (by rfl)

/-! ### Lemmas: prompt processor -/

theorem extractCompletionContent_chatPayload (s : String) :
    extractCompletionContent (chatPayload s) = jsTrim s := by
  have hdefeq : extractCompletionContent (chatPayload s) =
      firstNonEmptyS [jsTrim s, "", "", "", "", "", ""] := rfl
  rw [hdefeq]
  by_cases h : (trimList s.data).isEmpty = true
  · have h0 : trimList s.data = [] := List.isEmpty_iff.mp h
    have hjs : jsTrim s = "" := by
      show (⟨trimList s.data⟩ : String) = ""
      rw [h0]
    rw [hjs]
    rfl
  · have hne : (trimList (jsTrim s).data).isEmpty = false := by
      show (trimList (trimList s.data)).isEmpty = false
      rw [trimListIdem]
      cases hh : (trimList s.data).isEmpty
      · rfl
      · exact absurd hh h
    unfold firstNonEmptyS
    rw [hne]
    simp only [Bool.false_eq_true, if_false]
    show (⟨trimList (trimList s.data)⟩ : String) = ⟨trimList s.data⟩
    rw [trimListIdem]

/-! ### Claim theorems: prompt processor -/

/-- C4: on a chat-completion response whose extracted content is empty, the
first prompt-processor variant fails fatally with the empty-content error
while the second passes its input prompt through unchanged; the two
variants agree whenever extraction is non-empty; and they are therefore not
behaviorally equivalent (witnessed at the empty response). -/
theorem promptProcessorVariants_spec (s input : String) :
    ((extractFinalPrompt (jsTrim s)).data.isEmpty = true →
      completionResultV1 (chatPayload s) input =
        Except.error ("Prompt processor returned empty content") ∧
      completionResultV2 (chatPayload s) input = Except.ok input) ∧
    ((extractFinalPrompt (jsTrim s)).data.isEmpty = false →
      completionResultV1 (chatPayload s) input = completionResultV2 (chatPayload s) input) ∧
    completionResultV1 (chatPayload "") ("fallback") ≠
      completionResultV2 (chatPayload "") ("fallback") := by
  have hv1 : completionResultV1 (chatPayload s) input =
      (if (extractFinalPrompt (jsTrim s)).data.isEmpty = true
       then Except.error EMPTY_PROMPT_PROCESSOR_ERROR
       else Except.ok (extractFinalPrompt (jsTrim s))) := rfl
  have hv2core : completionResultV2core (chatPayload s) =
      (if (extractFinalPrompt (jsTrim s)).data.isEmpty = true
       then Except.error EMPTY_PROMPT_PROCESSOR_ERROR
       else Except.ok (extractFinalPrompt (jsTrim s))) := by
    rw [show completionResultV2core (chatPayload s) =
        (if (extractFinalPrompt (extractCompletionContent (chatPayload s))).data.isEmpty = true
         then Except.error EMPTY_PROMPT_PROCESSOR_ERROR
         else Except.ok (extractFinalPrompt (extractCompletionContent (chatPayload s)))) from rfl]
    rw [extractCompletionContent_chatPayload]
  refine ⟨?_, ?_, ?_⟩
  · intro h
    constructor
    · rw [hv1, if_pos h]
      rfl
    · unfold completionResultV2
      rw [hv2core, if_pos h]
      have hself : isPromptProcessorEmptyContentError EMPTY_PROMPT_PROCESSOR_ERROR = true := by
        decide
      simp [hself]
  · intro h
    have hno : ¬ ((extractFinalPrompt (jsTrim s)).data.isEmpty = true) := by
      rw [h]
      simp
    rw [hv1]
    unfold completionResultV2
    rw [hv2core]
    rw [if_neg hno]
  · intro hcontra
    have h1 : completionResultV1 (chatPayload "") ("fallback") =
        Except.error EMPTY_PROMPT_PROCESSOR_ERROR := rfl
    have h2 : completionResultV2 (chatPayload "") ("fallback") = Except.ok ("fallback") := rfl
    rw [h1, h2] at hcontra
    exact Except.noConfusion hcontra

/-- C4 witness: at the empty chat-completion content, variant 1 errors and
variant 2 passes the input `hello` through. -/
theorem promptProcessorVariants_witness :
    completionResultV1 (chatPayload "") ("hello") =
      Except.error ("Prompt processor returned empty content") ∧
    completionResultV2 (chatPayload "") ("hello") = Except.ok ("hello") :=
  (promptProcessorVariants_spec ("") ("hello")).1 (by decide)

/-- C8: whenever translation is enabled but the translate model, the filter
model, or either instruction prompt is missing after normalization, the
prompt-processing pipeline on a non-empty prompt fails with a validation
error whose value is independent of the upstream oracle — no upstream model
call can influence the outcome. -/
theorem processVideoPrompt_translateValidation (config : PromptProcessingOptions)
    (prompt : String)
    (hp : trimList prompt.data ≠ [])
    (ht : (normalizeOptions config).translateEnabled = true)
    (hmiss : (normalizeOptions config).translateModelId = "" ∨
             (normalizeOptions config).translatePrompt = "" ∨
             (normalizeOptions config).filterModelId = "" ∨
             (normalizeOptions config).filterPrompt = "") :
    ∃ msg, ∀ oracle, processVideoPromptModel oracle config prompt = Except.error msg := by
  have hval : ∃ m, validateOptions (normalizeOptions config) = Except.error m := by
    unfold validateOptions
    by_cases h1 : ((normalizeOptions config).filterEnabled &&
        ((normalizeOptions config).filterModelId.data.isEmpty ||
         (normalizeOptions config).filterPrompt.data.isEmpty)) = true
    · exact ⟨_, by rw [if_pos h1]⟩
    · rw [if_neg h1]
      by_cases h2 : ((normalizeOptions config).translateEnabled &&
          ((normalizeOptions config).translateModelId.data.isEmpty ||
           (normalizeOptions config).translatePrompt.data.isEmpty)) = true
      · exact ⟨_, by rw [if_pos h2]⟩
      · rw [if_neg h2]
        have h3 : ((normalizeOptions config).translateEnabled &&
            ((normalizeOptions config).filterModelId.data.isEmpty ||
             (normalizeOptions config).filterPrompt.data.isEmpty)) = true := by
          rcases hmiss with hm | hm | hm | hm
          · exact absurd (by rw [ht, hm]; rfl) h2
          · exact absurd (by rw [ht, hm]; simp) h2
          · rw [ht, hm]
            rfl
          · rw [ht, hm]
            simp
        exact ⟨_, by rw [if_pos h3]⟩
  obtain ⟨m, hval⟩ := hval
  refine ⟨m, fun oracle => ?_⟩
  unfold processVideoPromptModel
  have hbase : (jsTrim prompt).data.isEmpty = false := by
    show (trimList prompt.data).isEmpty = false
    cases hb : (trimList prompt.data).isEmpty
    · rfl
    · exact absurd (List.isEmpty_iff.mp hb) hp
  dsimp only
  rw [hbase]
  simp only [Bool.false_eq_true, if_false]
  rw [ht]
  simp only [Bool.not_true, Bool.and_false, Bool.false_eq_true, if_false]
  rw [hval]
  rfl

/-- C8 witness: translation enabled with an empty translate model id fails
with one fixed validation error for every oracle. -/
theorem processVideoPrompt_translateValidation_witness :
    ∃ msg, ∀ oracle, processVideoPromptModel oracle
      (⟨false, "", "", true, "", ""⟩ : PromptProcessingOptions) ("hello") = Except.error msg :=
  processVideoPrompt_translateValidation
    (⟨false, "", "", true, "", ""⟩ : PromptProcessingOptions) ("hello")
    (by decide) (by decide) (Or.inl (by decide))
